import Mathlib

/-!
Shallow embedding of `src/native-audio/src/lib.rs` (crate `native-audio` of the
Bonk repository): an `AudioPlayer` state machine built on a rodio output sink,
plus the pure `get_waveform` bucketed-amplitude extractor.

Modelling conventions:
* `f64` seconds / `std::time::Instant` / `std::time::Duration` are modelled as
  exact rationals (`ℚ`); wall-clock instants are passed explicitly as a `now`
  parameter wherever the Rust code calls `Instant::now()`.
* `u64` quantities are `ℕ` with explicit saturation (`satMul64`, and the
  saturating `as u64` cast) where the Rust code saturates.
* Fallible operations return the mutated state together with an
  `Except AudioError` result, mirroring `&mut self` methods returning
  `napi::Result`: mutations performed before an early `return Err(...)`
  survive in the returned state, exactly as in Rust.
* The decoder (`rodio::Decoder`) and the output device are external
  collaborators: an `Env` supplies the decode result for each path and
  whether `Sink::try_new` succeeds.
* rodio's `Sink::try_new` yields a sink that is NOT paused: sources appended
  with `Sink::append` start playing immediately unless `pause` is called.
  `Sink.new` below therefore has `paused := false`.  `Sink::len` counts the
  queued sources (one per `append`), so the queue is a list of sources.
-/

namespace Bonk

/-- Decode-stage failures: `File::open` errors (io) and `Decoder::new` errors. -/
inductive DecodeFailure where
  | ioError
  | decodeError
deriving DecidableEq, Repr

/-- The error taxonomy of the spec; every `Err` site of the Rust code is one
of these (the code itself uses `Status::GenericFailure` with a message). -/
inductive AudioError where
  | ioError
  | decodeError
  | deviceError
  | notLoadedError
deriving DecidableEq, Repr

/-- Inclusion of decode-stage failures into the full error taxonomy. -/
def DecodeFailure.toAudioError : DecodeFailure → AudioError
  | .ioError => .ioError
  | .decodeError => .decodeError

/-- Result of a successful `Decoder::new` pass over a file: reported total
duration (`total_duration()`, `none` when unavailable), sample rate, channel
count, and the interleaved `i16` sample stream. -/
structure DecodedFile where
  totalDuration : Option ℚ
  sampleRate : ℕ
  channels : ℕ
  samples : List ℤ
deriving DecidableEq, Repr

/-- External collaborators: `decode path` is the combined outcome of
`File::open` + `Decoder::new` on `path` (deterministic within one call
sequence), and `sinkOk` is whether `Sink::try_new` succeeds. -/
structure Env where
  decode : String → Except DecodeFailure DecodedFile
  sinkOk : Bool

/-- A rodio `Sink`: paused flag, queue of appended sources (each a sample
stream; `len()` is the number of queued sources), and volume. -/
structure Sink where
  paused : Bool
  queue : List (List ℤ)
  volume : ℚ
deriving DecidableEq, Repr

/-- `Sink::try_new`: a fresh sink is empty and NOT paused (rodio default). -/
def Sink.new : Sink := { paused := false, queue := [], volume := 1 }

/-- `Sink::append`: enqueue one source. -/
def Sink.append (s : Sink) (src : List ℤ) : Sink :=
  { s with queue := s.queue ++ [src] }

/-- `Sink::len`: number of queued sources. -/
def Sink.len (s : Sink) : ℕ := s.queue.length

/-- The `AudioPlayer` struct: `sink`, `current_file`, `duration` (a
`Duration`, `ZERO` initially) and `start_time`.  `streamHandle` models
whether the `stream_handle` mutex holds `Some` (set at construction, never
cleared by any method). -/
structure AudioPlayer where
  sink : Option Sink
  streamHandle : Bool
  currentFile : Option String
  duration : ℚ
  startTime : Option ℚ
deriving DecidableEq, Repr

/-- The state right after `AudioPlayer::new()` succeeds. -/
def AudioPlayer.init : AudioPlayer :=
  { sink := none, streamHandle := true, currentFile := none
    duration := 0, startTime := none }

/-- Rounding of a nonnegative `f64` to the nearest integer
(`f64::round`, half away from zero; for nonnegative input this is
`⌊x + 1/2⌋`), then `.toNat` for the `as u64` cast's behaviour on the
negatives that half-away-from-zero rounding can produce. -/
def roundNearestNat (x : ℚ) : ℕ := (⌊x + 1/2⌋).toNat

/-- The saturating `as u64` cast applied after `f64::round`. -/
def f64RoundToU64 (x : ℚ) : ℕ := min (roundNearestNat x) (2 ^ 64 - 1)

/-- `u64::saturating_mul`. -/
def satMul64 (a b : ℕ) : ℕ := min (a * b) (2 ^ 64 - 1)

/-- The sample-skipping loop of `seek`: decode and discard one sample at a
time until `n` samples were skipped or the source is exhausted. -/
def skipSamples : ℕ → List ℤ → List ℤ
  | 0, xs => xs
  | _ + 1, [] => []
  | n + 1, _ :: xs => skipSamples n xs

/-- `AudioPlayer::stop`: take and drop the sink, clear `start_time`.
Always returns `Ok(())`. -/
def stop (s : AudioPlayer) : AudioPlayer × Except AudioError Unit :=
  ({ s with sink := none, startTime := none }, .ok ())

/-- `AudioPlayer::load_file`: stop, open + decode once for the duration,
create a sink, open + decode a second time, append the stream, then install
the new session.  Returns the duration in seconds on success. -/
def loadFile (env : Env) (s : AudioPlayer) (filePath : String) :
    AudioPlayer × Except AudioError ℚ :=
  let s1 := (stop s).1
  match env.decode filePath with
  | .error e => (s1, .error e.toAudioError)
  | .ok f =>
    let dur := f.totalDuration.getD 0
    if s1.streamHandle = false then
      (s1, .error .deviceError)
    else if env.sinkOk = false then
      (s1, .error .deviceError)
    else
      match env.decode filePath with
      | .error e => (s1, .error e.toAudioError)
      | .ok f2 =>
        let sink := Sink.new.append f2.samples
        ({ s1 with
            sink := some sink
            currentFile := some filePath
            duration := dur
            startTime := none },
         .ok dur)

/-- The clamping performed by `seek`: `is_sign_negative → 0.0`, then
`.min(duration_secs).max(0.0)`. -/
def seekClamp (x d : ℚ) : ℚ := max (min (if x < 0 then 0 else x) d) 0

/-- `AudioPlayer::seek`: clamp, re-decode the current file from the start,
skip `round(target_secs * sample_rate) * channels` samples, bind the tail to
a fresh sink, and set `start_time := now - target_secs`. -/
def seek (env : Env) (s : AudioPlayer) (positionSecs now : ℚ) :
    AudioPlayer × Except AudioError Unit :=
  match s.currentFile with
  | none => (s, .error .notLoadedError)
  | some path =>
    let s1 := (stop s).1
    match env.decode path with
    | .error e => (s1, .error e.toAudioError)
    | .ok f =>
      let durationSecs := f.totalDuration.getD 0
      let targetSecs := seekClamp positionSecs durationSecs
      let targetFrames := f64RoundToU64 (targetSecs * (f.sampleRate : ℚ))
      let samplesToSkip := satMul64 targetFrames f.channels
      let tail := skipSamples samplesToSkip f.samples
      if s1.streamHandle = false then
        (s1, .error .deviceError)
      else if env.sinkOk = false then
        (s1, .error .deviceError)
      else
        ({ s1 with
            sink := some (Sink.new.append tail)
            duration := durationSecs
            startTime := some (now - targetSecs) },
         .ok ())

/-- `AudioPlayer::play`: unpause the sink and set `start_time := now`. -/
def play (s : AudioPlayer) (now : ℚ) : AudioPlayer × Except AudioError Unit :=
  match s.sink with
  | some sk =>
    ({ s with sink := some { sk with paused := false }, startTime := some now },
     .ok ())
  | none => (s, .error .notLoadedError)

/-- `AudioPlayer::pause`: pause the sink; `start_time` is kept. -/
def pause (s : AudioPlayer) : AudioPlayer × Except AudioError Unit :=
  match s.sink with
  | some sk => ({ s with sink := some { sk with paused := true } }, .ok ())
  | none => (s, .error .notLoadedError)

/-- `AudioPlayer::set_volume`: clamp to `[0,1]`, apply to the sink. -/
def setVolume (s : AudioPlayer) (volume : ℚ) : AudioPlayer × Except AudioError Unit :=
  let v := min (max volume 0) 1
  match s.sink with
  | some sk => ({ s with sink := some { sk with volume := v } }, .ok ())
  | none => (s, .error .notLoadedError)

/-- `AudioPlayer::get_duration`: the cached duration in seconds. -/
def getDuration (s : AudioPlayer) : ℚ := s.duration

/-- `AudioPlayer::get_position`: `start_time.elapsed()` when the anchor is
set (`Instant::elapsed` saturates at zero), else `0`. -/
def getPosition (s : AudioPlayer) (now : ℚ) : ℚ :=
  match s.startTime with
  | some start => max (now - start) 0
  | none => 0

/-- `AudioPlayer::is_playing`: a sink exists, is not paused, and `len() > 0`. -/
def isPlaying (s : AudioPlayer) : Bool :=
  match s.sink with
  | some sk => !sk.paused && decide (0 < sk.len)
  | none => false

/-- `AudioPlayer::is_paused`: a sink exists and is paused. -/
def isPaused (s : AudioPlayer) : Bool :=
  match s.sink with
  | some sk => sk.paused
  | none => false

/-! ### The `get_waveform` extractor

Amplitude arithmetic (`f32` in the Rust code) is modelled over `ℝ` so that
`sqrt` and `log2` are the genuine real functions. -/

/-- The result struct `WaveformData`. -/
structure WaveformData where
  durationMs : ℚ
  peaks : List ℝ

/-- `buckets.max(8).min(4096)`. -/
def clampBuckets (n : ℕ) : ℕ := min (max n 8) 4096

/-- `source.total_duration().unwrap_or(ZERO)` in seconds. -/
def durationSecsOf (f : DecodedFile) : ℚ := f.totalDuration.getD 0

/-- `(duration_secs.max(0.0) * sample_rate).round().max(1.0) as u64`. -/
def totalFramesOf (f : DecodedFile) : ℕ :=
  max (f64RoundToU64 (max (durationSecsOf f) 0 * (f.sampleRate : ℚ))) 1

/-- The bucket index assigned to the sample at `sample_index = i`:
`frame_index = i / channels.max(1)`, then
`min(frame_index * buckets / total_frames, buckets - 1)`. -/
def bucketIndexOf (channels buckets totalFrames i : ℕ) : ℕ :=
  min (i / max channels 1 * buckets / totalFrames) (buckets - 1)

/-- The contents of bucket `b` after the distribution loop: the samples whose
index maps to `b`, in stream order (`push` preserves order). -/
def bucketSamples (samples : List ℤ) (channels buckets totalFrames b : ℕ) :
    List ℤ :=
  ((samples.enum.filter
      fun p => bucketIndexOf channels buckets totalFrames p.1 == b).map
    Prod.snd)

/-- Normalisation of one decoded `i16` sample: `sample as f32 / i16::MAX`. -/
noncomputable def sampleValue (x : ℤ) : ℝ := (x : ℝ) / 32767

/-- Collapse one channel-width chunk to mono: average across channels when
`channels > 1`, else the single sample. -/
noncomputable def monoValue (channels : ℕ) (chunk : List ℝ) : ℝ :=
  if 1 < channels then chunk.sum / (channels : ℝ) else chunk.headI

/-- The per-bucket RMS loop of the Rust code: fold over the channel-width
chunks accumulating `sum_sq` and `count`, then
`if count > 0 { (sum_sq / count).sqrt() } else { 0.0 }`. -/
noncomputable def bucketRmsCode (channels : ℕ) (vals : List ℝ) : ℝ :=
  let acc :=
    (vals.toChunks channels).foldl
      (fun (a : ℝ × ℕ) chunk =>
        (a.1 + monoValue channels chunk * monoValue channels chunk, a.2 + 1))
      (0, 0)
  if 0 < acc.2 then Real.sqrt (acc.1 / (acc.2 : ℝ)) else 0

/-- The same RMS written the way the spec words it: the root of the mean of
the squared mono values. -/
noncomputable def bucketRmsSpec (channels : ℕ) (vals : List ℝ) : ℝ :=
  let monos := (vals.toChunks channels).map (monoValue channels)
  Real.sqrt ((monos.map fun m => m ^ 2).sum / (monos.length : ℝ))

/-- One bucket's compressed peak: `0.0` for an empty bucket, otherwise
`((rms.abs() + 1.0).log2() / 10.0).min(1.0)`. -/
noncomputable def rawPeak (channels : ℕ) (samples : List ℤ) : ℝ :=
  if samples = [] then 0
  else
    min (Real.logb 2 (|bucketRmsCode channels (samples.map sampleValue)| + 1) / 10) 1

/-- The peak vector before post-normalisation. -/
noncomputable def rawPeaks (f : DecodedFile) (buckets : ℕ) : List ℝ :=
  (List.range buckets).map fun b =>
    rawPeak f.channels (bucketSamples f.samples f.channels buckets (totalFramesOf f) b)

/-- `peaks.iter().fold(0.0, |acc, v| if v > acc { v } else { acc })`. -/
noncomputable def maxPeak (ps : List ℝ) : ℝ :=
  ps.foldl (fun acc v => if acc < v then v else acc) 0

/-- The post-normalisation step: divide by the maximum only when it lies
strictly between `0` and `1`. -/
noncomputable def normalizePeaks (ps : List ℝ) : List ℝ :=
  let m := maxPeak ps
  if 0 < m ∧ m < 1 then ps.map fun p => p / m else ps

/-- The whole extractor on an already-decoded file, with the requested
bucket count already clamped by the caller. -/
noncomputable def waveformOfFile (f : DecodedFile) (buckets : ℕ) : WaveformData :=
  { durationMs := durationSecsOf f * 1000
    peaks := normalizePeaks (rawPeaks f buckets) }

/-- `get_waveform(path, buckets)`: clamp the bucket count, decode, extract.
Fails exactly when the decode fails. -/
noncomputable def get_waveform (env : Env) (path : String) (buckets : ℕ) :
    Except AudioError WaveformData :=
  let b := clampBuckets buckets
  match env.decode path with
  | .error e => .error e.toAudioError
  | .ok f => .ok (waveformOfFile f b)

/-! ### Concrete fixtures used by witnesses and counterexamples -/

/-- A 10-second mono file at a 1 Hz sample rate (one sample per frame keeps
concrete evaluation small); ten silent samples. -/
def sampleFile : DecodedFile :=
  { totalDuration := some 10, sampleRate := 1, channels := 1
    samples := [0, 0, 0, 0, 0, 0, 0, 0, 0, 0] }

/-- An environment whose decoder yields `sampleFile` for every path and whose
output device accepts sink creation. -/
def env0 : Env := { decode := fun _ => .ok sampleFile, sinkOk := true }

/-- The player right after a successful `load_file` of `sampleFile`. -/
def loaded0 : AudioPlayer := (loadFile env0 AudioPlayer.init "song").1

/-- `loaded0` after `play()` at wall-clock instant 50. -/
def playing0 : AudioPlayer := (play loaded0 50).1

/-- The sink held by `playing0`. -/
def sink0 : Sink := { paused := false, queue := [sampleFile.samples], volume := 1 }

/-! ### Helper lemmas -/

/-- The skip loop discards exactly `n` samples (all of them when the stream is
shorter): it is `List.drop`. -/
theorem skipSamples_eq_drop (n : ℕ) (l : List ℤ) : skipSamples n l = l.drop n := by
  induction n generalizing l with
  | zero => cases l <;> rfl
  | succ n ih => cases l with
    | nil => rfl
    | cons x xs => simpa [skipSamples] using ih xs

/-- The running maximum never drops below its initial value. -/
theorem foldlMax_init_le (l : List ℝ) (a : ℝ) :
    a ≤ l.foldl (fun acc v => if acc < v then v else acc) a := by
  induction l generalizing a with
  | nil => simp
  | cons x xs ih =>
    refine le_trans ?_ (ih (if a < x then x else a))
    split <;> simp_all [le_of_lt]

/-- Every list element is bounded by the running maximum. -/
theorem le_foldlMax (l : List ℝ) (a x : ℝ) (hx : x ∈ l) :
    x ≤ l.foldl (fun acc v => if acc < v then v else acc) a := by
  induction l generalizing a with
  | nil => cases hx
  | cons y ys ih =>
    rcases List.mem_cons.1 hx with rfl | h
    · refine le_trans ?_ (foldlMax_init_le ys _)
      dsimp only
      split
      · exact le_rfl
      · exact le_of_not_lt (by assumption)
    · exact ih _ h

/-- `maxPeak` starts the fold at `0`, so it is nonnegative. -/
theorem maxPeak_nonneg (ps : List ℝ) : 0 ≤ maxPeak ps :=
  foldlMax_init_le ps 0

/-- Every peak is bounded by `maxPeak`. -/
theorem le_maxPeak (ps : List ℝ) (x : ℝ) (hx : x ∈ ps) : x ≤ maxPeak ps :=
  le_foldlMax ps 0 x hx

/-- Unrolling the `sum_sq`/`count` accumulation loop of the Rust code: it
computes the sum of the squared mono values and the number of chunks. -/
theorem rmsFold_eq (channels : ℕ) (chunks : List (List ℝ)) (s : ℝ) (c : ℕ) :
    chunks.foldl
        (fun (a : ℝ × ℕ) chunk =>
          (a.1 + monoValue channels chunk * monoValue channels chunk, a.2 + 1))
        (s, c) =
      (s + ((chunks.map (monoValue channels)).map fun m => m ^ 2).sum,
       c + chunks.length) := by
  induction chunks generalizing s c with
  | nil => simp
  | cons ch t ih =>
    simp only [List.foldl_cons, List.map_cons, List.sum_cons, List.length_cons, ih,
      Prod.mk.injEq]
    exact ⟨by ring, by omega⟩

/-- The per-bucket RMS loop computes exactly the spec's
`sqrt(mean(mono_value²))`. -/
theorem bucketRmsCode_eq_spec (channels : ℕ) (vals : List ℝ) :
    bucketRmsCode channels vals = bucketRmsSpec channels vals := by
  unfold bucketRmsCode bucketRmsSpec
  simp only [rmsFold_eq, zero_add]
  rcases Nat.eq_zero_or_pos (vals.toChunks channels).length with h | h
  · rw [List.length_eq_zero] at h
    simp [h, Real.sqrt_zero]
  · simp [h, List.length_map]

/-- The RMS is nonnegative (it is a square root or `0`). -/
theorem bucketRmsCode_nonneg (channels : ℕ) (vals : List ℝ) :
    0 ≤ bucketRmsCode channels vals := by
  unfold bucketRmsCode
  dsimp only
  split
  · exact Real.sqrt_nonneg _
  · exact le_rfl

/-- Each compressed peak is nonnegative. -/
theorem rawPeak_nonneg (channels : ℕ) (samples : List ℤ) :
    0 ≤ rawPeak channels samples := by
  unfold rawPeak
  split
  · exact le_rfl
  · refine le_min (div_nonneg ?_ (by norm_num)) zero_le_one
    exact Real.logb_nonneg one_lt_two (le_add_of_nonneg_left (abs_nonneg _))

/-- Each compressed peak is at most `1` (the `.min(1.0)`). -/
theorem rawPeak_le_one (channels : ℕ) (samples : List ℤ) :
    rawPeak channels samples ≤ 1 := by
  unfold rawPeak
  split
  · exact zero_le_one
  · exact min_le_right _ _

/-- The pre-normalisation peak vector has one entry per bucket. -/
theorem rawPeaks_length (f : DecodedFile) (buckets : ℕ) :
    (rawPeaks f buckets).length = buckets := by
  simp [rawPeaks]

/-! ### Claim theorems -/

/-- C7: `stop()` always succeeds (also when nothing is loaded), discards the
sink and clears the play anchor; immediately afterwards `get_position()`
returns `0` and `is_playing()` and `is_paused()` both return `false`, from
every state. -/
theorem stop_resets_queries (s : AudioPlayer) (now : ℚ) :
    (stop s).2 = .ok () ∧ (stop s).1.sink = none ∧ (stop s).1.startTime = none ∧
    getPosition (stop s).1 now = 0 ∧ isPlaying (stop s).1 = false ∧
    isPaused (stop s).1 = false := by
  simp [stop, getPosition, isPlaying, isPaused]

/-- C9: calling `stop()` twice produces exactly the same state and result as
calling it once, hence the same sink, current path, duration, anchor and
query results. -/
theorem stop_idempotent (s : AudioPlayer) :
    stop (stop s).1 = stop s ∧
    (stop (stop s).1).1.currentFile = (stop s).1.currentFile ∧
    (stop (stop s).1).1.duration = (stop s).1.duration ∧
    (∀ now, getPosition (stop (stop s).1).1 now = getPosition (stop s).1 now) ∧
    isPlaying (stop (stop s).1).1 = isPlaying (stop s).1 ∧
    isPaused (stop (stop s).1).1 = isPaused (stop s).1 :=
  ⟨rfl, rfl, rfl, fun _ => rfl, rfl, rfl⟩

/-- C2 (amended): immediately after a successful `load(path)` the fresh sink
has the full decoded stream enqueued and the play anchor is cleared
(`get_position() = 0`), but the sink created by `Sink::try_new` is NOT
paused, so `is_playing()` already returns `true` before any `play()` call. -/
theorem load_installs_unpaused_sink (env : Env) (s : AudioPlayer) (path : String)
    (f : DecodedFile) (now : ℚ) (hdec : env.decode path = .ok f)
    (hsh : s.streamHandle = true) (hsk : env.sinkOk = true) :
    loadFile env s path =
      ({ s with
          sink := some (Sink.new.append f.samples)
          currentFile := some path
          duration := durationSecsOf f
          startTime := none },
       .ok (durationSecsOf f)) ∧
    (Sink.new.append f.samples).queue = [f.samples] ∧
    (Sink.new.append f.samples).paused = false ∧
    (loadFile env s path).1.startTime = none ∧
    getPosition (loadFile env s path).1 now = 0 ∧
    isPlaying (loadFile env s path).1 = true := by
  have h : loadFile env s path =
      ({ s with
          sink := some (Sink.new.append f.samples)
          currentFile := some path
          duration := durationSecsOf f
          startTime := none },
       .ok (durationSecsOf f)) := by
    simp [loadFile, stop, hdec, hsh, hsk, durationSecsOf]
  refine ⟨h, rfl, rfl, ?_, ?_, ?_⟩ <;>
    simp [h, getPosition, isPlaying, Sink.len, Sink.append, Sink.new]

/-- C2 witness for the amended theorem: its hypotheses hold at the concrete
fixture and the conclusion follows by applying the theorem there. -/
theorem load_installs_unpaused_sink_witness :
    env0.decode "x" = .ok sampleFile ∧ AudioPlayer.init.streamHandle = true ∧
    env0.sinkOk = true ∧
    isPlaying (loadFile env0 AudioPlayer.init "x").1 = true :=
  ⟨rfl, rfl, rfl,
   (load_installs_unpaused_sink env0 AudioPlayer.init "x" sampleFile 0
      rfl rfl rfl).2.2.2.2.2⟩

/-- C2 counterexample: on a successfully loaded player the claim's
`is_playing() = false before play()` is refuted — the sink is unpaused with a
queued source, so `is_playing()` is already `true`. -/
theorem load_isPlaying_counterexample :
    isPlaying loaded0 = true ∧ ¬ isPlaying loaded0 = false := by decide

/-- C1 (amended): for a loaded file of duration `d` and `0 ≤ x ≤ d`,
`seek(x)` makes an immediate `get_position()` report exactly `x`; but a
subsequent `play()` resets the anchor to the current instant, so after `t`
more seconds `get_position()` reports `t`, not `x + t`. -/
theorem seek_then_play_position (env : Env) (s : AudioPlayer) (p : String)
    (f : DecodedFile) (x t₀ t₁ t : ℚ)
    (hcur : s.currentFile = some p) (hdec : env.decode p = .ok f)
    (hsh : s.streamHandle = true) (hsk : env.sinkOk = true)
    (hx0 : 0 ≤ x) (hxd : x ≤ durationSecsOf f) (ht : 0 ≤ t) :
    (seek env s x t₀).2 = .ok () ∧
    getPosition (seek env s x t₀).1 t₀ = x ∧
    getPosition ((play (seek env s x t₀).1 t₁).1) (t₁ + t) = t := by
  have hclamp : seekClamp x (f.totalDuration.getD 0) = x := by
    have hd : durationSecsOf f = f.totalDuration.getD 0 := rfl
    rw [seekClamp, if_neg (not_lt.2 hx0), min_eq_left (hd ▸ hxd), max_eq_left hx0]
  have hseek : seek env s x t₀ =
      ({ s with
          sink := some (Sink.new.append
            (skipSamples
              (satMul64 (f64RoundToU64 (x * (f.sampleRate : ℚ))) f.channels)
              f.samples))
          duration := f.totalDuration.getD 0
          startTime := some (t₀ - x) },
       .ok ()) := by
    simp [seek, stop, hcur, hdec, hsh, hsk, hclamp]
  refine ⟨by rw [hseek], ?_, ?_⟩
  · rw [hseek]
    simp only [getPosition]
    rw [sub_sub_cancel, max_eq_left hx0]
  · rw [hseek]
    simp only [play, getPosition]
    rw [add_sub_cancel_left, max_eq_left ht]

/-- C1 witness for the amended theorem: every hypothesis holds at the
concrete fixture (seek to 5 at instant 100, play at instant 200, query 2
seconds later) and the conclusion follows by applying the theorem. -/
theorem seek_then_play_position_witness :
    loaded0.currentFile = some "song" ∧ env0.decode "song" = .ok sampleFile ∧
    loaded0.streamHandle = true ∧ env0.sinkOk = true ∧
    (0 : ℚ) ≤ 5 ∧ (5 : ℚ) ≤ durationSecsOf sampleFile ∧ (0 : ℚ) ≤ 2 ∧
    ((seek env0 loaded0 5 100).2 = .ok () ∧
     getPosition (seek env0 loaded0 5 100).1 100 = 5 ∧
     getPosition ((play (seek env0 loaded0 5 100).1 200).1) (200 + 2) = 2) :=
  ⟨rfl, rfl, rfl, rfl, by norm_num, by norm_num [durationSecsOf, sampleFile],
   by norm_num,
   seek_then_play_position env0 loaded0 "song" sampleFile 5 100 200 2 rfl rfl
     rfl rfl (by norm_num) (by norm_num [durationSecsOf, sampleFile])
     (by norm_num)⟩

/-- C1 counterexample: on the concrete 10-second file, `seek(5.0)` makes
`get_position()` report `5.0`, but after `play()` and 2 elapsed seconds
`get_position()` reports `2.0`, not the claimed `7.0`. -/
theorem seek_play_position_counterexample :
    getPosition ((seek env0 loaded0 5 100).1) 100 = 5 ∧
    getPosition ((play ((seek env0 loaded0 5 100).1) 100).1) 102 = 2 ∧
    getPosition ((play ((seek env0 loaded0 5 100).1) 100).1) 102 ≠ 7 := by
  norm_num [getPosition, play, seek, stop, loadFile, seekClamp, f64RoundToU64,
    roundNearestNat, satMul64, skipSamples, env0, loaded0, sampleFile,
    AudioPlayer.init, Sink.new, Sink.append]

/-- C6: `pause()` succeeds on a state with a sink and leaves `play_anchor`
untouched, so `get_position()` keeps advancing with wall-clock time after the
pause instead of freezing: at any two instants `t₁ ≤ t₂` past the anchor the
reported positions differ by exactly `t₂ - t₁`. -/
theorem pause_keeps_anchor_position_advances (s : AudioPlayer) (sk : Sink)
    (a t₁ t₂ : ℚ) (hsink : s.sink = some sk) (hanchor : s.startTime = some a)
    (h1 : a ≤ t₁) (h2 : t₁ ≤ t₂) :
    (pause s).2 = .ok () ∧
    (pause s).1.startTime = some a ∧
    getPosition (pause s).1 t₁ = t₁ - a ∧
    getPosition (pause s).1 t₂ = t₂ - a ∧
    getPosition (pause s).1 t₂ - getPosition (pause s).1 t₁ = t₂ - t₁ := by
  have hp : pause s = ({ s with sink := some { sk with paused := true } }, .ok ()) := by
    simp [pause, hsink]
  have g1 : getPosition (pause s).1 t₁ = t₁ - a := by
    rw [hp]; simp only [getPosition, hanchor]
    exact max_eq_left (sub_nonneg.2 h1)
  have g2 : getPosition (pause s).1 t₂ = t₂ - a := by
    rw [hp]; simp only [getPosition, hanchor]
    exact max_eq_left (sub_nonneg.2 (h1.trans h2))
  refine ⟨by rw [hp], by rw [hp]; simpa using hanchor, g1, g2, by rw [g1, g2]; ring⟩

/-- C6 witness: the hypotheses hold at the concrete playing fixture (anchor
at instant 50, queries at 60 and 70) and the conclusion follows by applying
the theorem there. -/
theorem pause_keeps_anchor_position_advances_witness :
    playing0.sink = some sink0 ∧ playing0.startTime = some 50 ∧
    (50 : ℚ) ≤ 60 ∧ (60 : ℚ) ≤ 70 ∧
    (getPosition (pause playing0).1 60 = 60 - 50 ∧
     getPosition (pause playing0).1 70 = 70 - 50) :=
  ⟨rfl, rfl, by norm_num, by norm_num,
   ⟨(pause_keeps_anchor_position_advances playing0 sink0 50 60 70 rfl rfl
       (by norm_num) (by norm_num)).2.2.1,
    (pause_keeps_anchor_position_advances playing0 sink0 50 60 70 rfl rfl
       (by norm_num) (by norm_num)).2.2.2.1⟩⟩

/-- C4: on a loaded file, `seek(x)` clamps the requested position to
`[0, total_duration]` (negative requests to `0`, requests beyond the duration
to the duration) and then discards exactly
`round(clamped_seconds × sample_rate) × channels` samples from a fresh decode
before binding the remaining tail to a new sink. -/
theorem seek_clamps_and_skips (env : Env) (s : AudioPlayer) (p : String)
    (f : DecodedFile) (x now : ℚ)
    (hcur : s.currentFile = some p) (hdec : env.decode p = .ok f)
    (hsh : s.streamHandle = true) (hsk : env.sinkOk = true)
    (hd : 0 ≤ durationSecsOf f)
    (hfit : roundNearestNat (seekClamp x (durationSecsOf f) * (f.sampleRate : ℚ)) *
      f.channels < 2 ^ 64) :
    seekClamp x (durationSecsOf f) = max 0 (min x (durationSecsOf f)) ∧
    (x < 0 → seekClamp x (durationSecsOf f) = 0) ∧
    (durationSecsOf f < x → seekClamp x (durationSecsOf f) = durationSecsOf f) ∧
    seek env s x now =
      ({ s with
          sink := some (Sink.new.append (f.samples.drop
            (roundNearestNat (seekClamp x (durationSecsOf f) * (f.sampleRate : ℚ)) *
              f.channels)))
          duration := durationSecsOf f
          startTime := some (now - seekClamp x (durationSecsOf f)) },
       .ok ()) := by
  have hskip : satMul64
      (f64RoundToU64 (seekClamp x (durationSecsOf f) * (f.sampleRate : ℚ)))
      f.channels =
      roundNearestNat (seekClamp x (durationSecsOf f) * (f.sampleRate : ℚ)) *
        f.channels := by
    rcases Nat.eq_zero_or_pos f.channels with hch | hch
    · simp [hch, satMul64, f64RoundToU64]
    · have hr : roundNearestNat
          (seekClamp x (durationSecsOf f) * (f.sampleRate : ℚ)) < 2 ^ 64 :=
        lt_of_le_of_lt (Nat.le_mul_of_pos_right _ hch) hfit
      rw [f64RoundToU64, min_eq_left (by omega), satMul64, min_eq_left (by omega)]
  refine ⟨?_, ?_, ?_, ?_⟩
  · unfold seekClamp
    rcases lt_or_le x 0 with hx | hx
    · rw [if_pos hx, min_eq_left hd, max_self, min_eq_left (hx.le.trans hd),
        max_eq_left hx.le]
    · rw [if_neg (not_lt.2 hx), max_comm]
  · intro hx
    unfold seekClamp
    rw [if_pos hx, min_eq_left hd, max_self]
  · intro hx
    have hx0 : ¬ x < 0 := not_lt.2 (hd.trans hx.le)
    unfold seekClamp
    rw [if_neg hx0, min_eq_right hx.le, max_eq_left hd]
  · simp only [durationSecsOf] at hskip
    simp [seek, stop, hcur, hdec, hsh, hsk, durationSecsOf, hskip,
      skipSamples_eq_drop]

/-- C4 witness: seeking to 12 seconds in the 10-second fixture clamps to 10
and skips `round(10 × 1) × 1 = 10` samples, leaving an empty tail. -/
theorem seek_clamps_and_skips_witness :
    loaded0.currentFile = some "song" ∧ env0.decode "song" = .ok sampleFile ∧
    loaded0.streamHandle = true ∧ env0.sinkOk = true ∧
    (0 : ℚ) ≤ durationSecsOf sampleFile ∧
    roundNearestNat (seekClamp 12 (durationSecsOf sampleFile) *
      (sampleFile.sampleRate : ℚ)) * sampleFile.channels < 2 ^ 64 ∧
    (12 : ℚ) > durationSecsOf sampleFile ∧
    seekClamp 12 (durationSecsOf sampleFile) = durationSecsOf sampleFile :=
  ⟨rfl, rfl, rfl, rfl, by norm_num [durationSecsOf, sampleFile],
   by norm_num [roundNearestNat, seekClamp, durationSecsOf, sampleFile],
   by norm_num [durationSecsOf, sampleFile],
   (seek_clamps_and_skips env0 loaded0 "song" sampleFile 12 0 rfl rfl rfl rfl
      (by norm_num [durationSecsOf, sampleFile])
      (by norm_num [roundNearestNat, seekClamp, durationSecsOf, sampleFile])).2.2.1
     (by norm_num [durationSecsOf, sampleFile])⟩

/-- C5: `load` and `seek` are all-or-nothing for the session: on success a
new session (sink, duration, anchor discipline) is installed, and on any
failure the returned state has no sink and no anchor (the prior sink was
already torn down by the initial `stop`), while no data of the half-completed
reload (path, duration) was installed. -/
theorem load_seek_all_or_nothing (env : Env) (s : AudioPlayer) (path : String)
    (x now : ℚ) :
    (∀ s' d, loadFile env s path = (s', .ok d) →
       (∃ sk, s'.sink = some sk) ∧ s'.currentFile = some path ∧
       s'.duration = d ∧ s'.startTime = none) ∧
    (∀ s' e, loadFile env s path = (s', .error e) →
       s'.sink = none ∧ s'.startTime = none ∧
       s'.currentFile = s.currentFile ∧ s'.duration = s.duration) ∧
    (∀ p, s.currentFile = some p →
       (∀ s' e, seek env s x now = (s', .error e) →
          s'.sink = none ∧ s'.startTime = none ∧
          s'.currentFile = s.currentFile ∧ s'.duration = s.duration) ∧
       (∀ s', seek env s x now = (s', .ok ()) →
          (∃ sk, s'.sink = some sk) ∧ s'.startTime.isSome = true)) := by
  refine ⟨?_, ?_, ?_⟩
  · intro s' d h
    cases hdec : env.decode path with
    | error e => simp [loadFile, stop, hdec] at h
    | ok f =>
      cases hsh : s.streamHandle with
      | false => simp [loadFile, stop, hdec, hsh] at h
      | true =>
        cases hsk : env.sinkOk with
        | false => simp [loadFile, stop, hdec, hsh, hsk] at h
        | true =>
          simp [loadFile, stop, hdec, hsh, hsk] at h
          obtain ⟨h1, h2⟩ := h
          subst h1
          simp [h2]
  · intro s' e h
    cases hdec : env.decode path with
    | error e' =>
      simp [loadFile, stop, hdec] at h
      obtain ⟨h1, h2⟩ := h
      subst h1
      simp
    | ok f =>
      cases hsh : s.streamHandle with
      | false =>
        simp [loadFile, stop, hdec, hsh] at h
        obtain ⟨h1, h2⟩ := h
        subst h1
        simp
      | true =>
        cases hsk : env.sinkOk with
        | false =>
          simp [loadFile, stop, hdec, hsh, hsk] at h
          obtain ⟨h1, h2⟩ := h
          subst h1
          simp
        | true => simp [loadFile, stop, hdec, hsh, hsk] at h
  · intro p hcur
    constructor
    · intro s' e h
      cases hdec : env.decode p with
      | error e' =>
        simp [seek, stop, hcur, hdec] at h
        obtain ⟨h1, h2⟩ := h
        subst h1
        simp [hcur]
      | ok f =>
        cases hsh : s.streamHandle with
        | false =>
          simp [seek, stop, hcur, hdec, hsh] at h
          obtain ⟨h1, h2⟩ := h
          subst h1
          simp [hcur]
        | true =>
          cases hsk : env.sinkOk with
          | false =>
            simp [seek, stop, hcur, hdec, hsh, hsk] at h
            obtain ⟨h1, h2⟩ := h
            subst h1
            simp [hcur]
          | true => simp [seek, stop, hcur, hdec, hsh, hsk] at h
    · intro s' h
      cases hdec : env.decode p with
      | error e' => simp [seek, stop, hcur, hdec] at h
      | ok f =>
        cases hsh : s.streamHandle with
        | false => simp [seek, stop, hcur, hdec, hsh] at h
        | true =>
          cases hsk : env.sinkOk with
          | false => simp [seek, stop, hcur, hdec, hsh, hsk] at h
          | true =>
            simp [seek, stop, hcur, hdec, hsh, hsk] at h
            subst h
            simp

/-- C5 witness: the one hypothesis-bearing part (the `seek` clause) holds at
the concrete loaded fixture. -/
theorem load_seek_all_or_nothing_witness :
    loaded0.currentFile = some "song" ∧
    (∀ s', seek env0 loaded0 3 100 = (s', .ok ()) →
       (∃ sk, s'.sink = some sk) ∧ s'.startTime.isSome = true) :=
  ⟨rfl,
   ((load_seek_all_or_nothing env0 loaded0 "other" 3 100).2.2 "song" rfl).2⟩

/-- C10: once a load has succeeded the stored current path survives every
later operation — `stop`, `play`, `pause`, `set_volume`, `seek`, and a failed
`load` all leave it intact, while a successful `load` replaces it with the
new path — and `seek` called after `stop()` does not fail with
`NotLoadedError`: it re-decodes the previously loaded path and installs a
fresh sink holding the skipped tail of that file. -/
theorem currentFile_persists_seek_after_stop (env : Env) (s : AudioPlayer)
    (q path : String) (x v now : ℚ) (hq : s.currentFile = some q) :
    (stop s).1.currentFile = some q ∧
    (play s now).1.currentFile = some q ∧
    (pause s).1.currentFile = some q ∧
    (setVolume s v).1.currentFile = some q ∧
    (seek env s x now).1.currentFile = some q ∧
    (∀ s' e, loadFile env s path = (s', .error e) → s'.currentFile = some q) ∧
    (∀ s' d, loadFile env s path = (s', .ok d) → s'.currentFile = some path) ∧
    (seek env (stop s).1 x now).2 ≠ .error .notLoadedError ∧
    (∀ f, env.decode q = .ok f → env.sinkOk = true → s.streamHandle = true →
       seek env (stop s).1 x now =
         ({ s with
             sink := some (Sink.new.append (skipSamples
               (satMul64
                 (f64RoundToU64 (seekClamp x (durationSecsOf f) * (f.sampleRate : ℚ)))
                 f.channels)
               f.samples))
             duration := durationSecsOf f
             startTime := some (now - seekClamp x (durationSecsOf f)) },
          .ok ())) := by
  have hstopcur : (stop s).1.currentFile = some q := hq
  refine ⟨hq, ?_, ?_, ?_, ?_, ?_, ?_, ?_, ?_⟩
  · unfold play
    cases s.sink <;> simpa using hq
  · unfold pause
    cases s.sink <;> simpa using hq
  · unfold setVolume
    cases s.sink <;> simpa using hq
  · cases hdec : env.decode q with
    | error e => simp [seek, stop, hq, hdec]
    | ok f =>
      cases hsh : s.streamHandle <;> cases hsk : env.sinkOk <;>
        simp [seek, stop, hq, hdec, hsh, hsk]
  · intro s' e h
    cases hdec : env.decode path with
    | error e' =>
      simp [loadFile, stop, hdec] at h
      obtain ⟨h1, h2⟩ := h
      subst h1
      simpa using hq
    | ok f =>
      cases hsh : s.streamHandle with
      | false =>
        simp [loadFile, stop, hdec, hsh] at h
        obtain ⟨h1, h2⟩ := h
        subst h1
        simpa using hq
      | true =>
        cases hsk : env.sinkOk with
        | false =>
          simp [loadFile, stop, hdec, hsh, hsk] at h
          obtain ⟨h1, h2⟩ := h
          subst h1
          simpa using hq
        | true => simp [loadFile, stop, hdec, hsh, hsk] at h
  · intro s' d h
    cases hdec : env.decode path with
    | error e' => simp [loadFile, stop, hdec] at h
    | ok f =>
      cases hsh : s.streamHandle with
      | false => simp [loadFile, stop, hdec, hsh] at h
      | true =>
        cases hsk : env.sinkOk with
        | false => simp [loadFile, stop, hdec, hsh, hsk] at h
        | true =>
          simp [loadFile, stop, hdec, hsh, hsk] at h
          obtain ⟨h1, h2⟩ := h
          subst h1
          simp
  · cases hdec : env.decode q with
    | error e =>
      cases e <;>
        simp [seek, stop, hq, hdec, DecodeFailure.toAudioError]
    | ok f =>
      cases hsh : s.streamHandle <;> cases hsk : env.sinkOk <;>
        simp [seek, stop, hq, hdec, hsh, hsk]
  · intro f hdec hsk hsh
    simp [seek, stop, hq, hdec, hsh, hsk, durationSecsOf]

/-- C10 witness: the hypotheses hold at the concrete loaded fixture; stopping
and then seeking succeeds rather than failing with `NotLoadedError`. -/
theorem currentFile_persists_seek_after_stop_witness :
    loaded0.currentFile = some "song" ∧
    (seek env0 (stop loaded0).1 3 100).2 ≠ .error .notLoadedError :=
  ⟨rfl,
   (currentFile_persists_seek_after_stop env0 loaded0 "song" "other" 3 1 100
      rfl).2.2.2.2.2.2.2.1⟩

/-- Post-normalisation preserves the number of peaks. -/
theorem normalizePeaks_length (ps : List ℝ) :
    (normalizePeaks ps).length = ps.length := by
  unfold normalizePeaks
  dsimp only
  split
  · simp
  · rfl

/-- Entries of the pre-normalisation vector lie in `[0,1]`. -/
theorem mem_rawPeaks_bounds (f : DecodedFile) (buckets : ℕ) (q : ℝ)
    (hq : q ∈ rawPeaks f buckets) : 0 ≤ q ∧ q ≤ 1 := by
  unfold rawPeaks at hq
  obtain ⟨b, _, rfl⟩ := List.mem_map.1 hq
  exact ⟨rawPeak_nonneg _ _, rawPeak_le_one _ _⟩

/-- All peaks remain in `[0,1]` after post-normalisation. -/
theorem mem_normalizePeaks_bounds (f : DecodedFile) (buckets : ℕ) (q : ℝ)
    (hq : q ∈ normalizePeaks (rawPeaks f buckets)) : 0 ≤ q ∧ q ≤ 1 := by
  unfold normalizePeaks at hq
  dsimp only at hq
  by_cases h : 0 < maxPeak (rawPeaks f buckets) ∧ maxPeak (rawPeaks f buckets) < 1
  · rw [if_pos h] at hq
    obtain ⟨r, hr, rfl⟩ := List.mem_map.1 hq
    obtain ⟨hr0, _⟩ := mem_rawPeaks_bounds f buckets r hr
    exact ⟨div_nonneg hr0 h.1.le, (div_le_one h.1).2 (le_maxPeak _ _ hr)⟩
  · rw [if_neg h] at hq
    exact mem_rawPeaks_bounds f buckets q hq

/-- Indexing the pre-normalisation vector. -/
theorem rawPeaks_getElem? (f : DecodedFile) (buckets b : ℕ) (hb : b < buckets) :
    (rawPeaks f buckets)[b]? =
      some (rawPeak f.channels
        (bucketSamples f.samples f.channels buckets (totalFramesOf f) b)) := by
  unfold rawPeaks
  rw [List.getElem?_map]
  simp [List.getElem?_range, hb]

/-- A bucket that received no samples gets peak `0`. -/
theorem rawPeak_nil (channels : ℕ) : rawPeak channels [] = 0 := by
  simp [rawPeak]

/-- The compression step written as the spec words it: the fold-based RMS is
the root mean square, the `abs` on it is redundant, and the `.min(1.0)` is
`min(1, ·)`. -/
theorem rawPeak_eq_spec (channels : ℕ) (samples : List ℤ) :
    rawPeak channels samples =
      if samples = [] then 0
      else
        min 1
          (Real.logb 2 (bucketRmsSpec channels (samples.map sampleValue) + 1) / 10) := by
  by_cases h : samples = []
  · simp [rawPeak, h]
  · rw [rawPeak, if_neg h, if_neg h,
      abs_of_nonneg (bucketRmsCode_nonneg _ _), bucketRmsCode_eq_spec, min_comm]

/-- C3: `get_waveform(path, n)` fails exactly when the decode fails — in
particular `n` outside `[8, 4096]` raises no error — and on success returns
exactly `clamp(n, 8, 4096)` peaks, each lying in `[0, 1]`, with every bucket
to which no samples were mapped reported as `0`. -/
theorem get_waveform_shape (env : Env) (path : String) (n : ℕ) :
    (∀ e, env.decode path = .error e →
       get_waveform env path n = .error e.toAudioError) ∧
    (∀ f, env.decode path = .ok f →
       ∃ w, get_waveform env path n = .ok w ∧
         w.peaks.length = min (max n 8) 4096 ∧
         (∀ q ∈ w.peaks, 0 ≤ q ∧ q ≤ 1) ∧
         (∀ b, b < clampBuckets n →
            bucketSamples f.samples f.channels (clampBuckets n) (totalFramesOf f) b = [] →
            w.peaks[b]? = some 0)) := by
  constructor
  · intro e h
    simp [get_waveform, h]
  · intro f h
    refine ⟨waveformOfFile f (clampBuckets n), by simp [get_waveform, h], ?_, ?_, ?_⟩
    · show (normalizePeaks (rawPeaks f (clampBuckets n))).length = min (max n 8) 4096
      rw [normalizePeaks_length, rawPeaks_length]
      rfl
    · intro q hq
      exact mem_normalizePeaks_bounds f (clampBuckets n) q hq
    · intro b hb hempty
      show (normalizePeaks (rawPeaks f (clampBuckets n)))[b]? = some 0
      have hraw : (rawPeaks f (clampBuckets n))[b]? = some 0 := by
        rw [rawPeaks_getElem? f (clampBuckets n) b hb, hempty, rawPeak_nil]
      unfold normalizePeaks
      dsimp only
      split
      · rw [List.getElem?_map, hraw]
        simp
      · exact hraw

/-- C3 witness: at the concrete fixture the decode hypothesis holds and
`get_waveform` with a requested bucket count of 5 (below the valid range)
succeeds with `clamp(5, 8, 4096) = 8` peaks. -/
theorem get_waveform_shape_witness :
    env0.decode "wave" = .ok sampleFile ∧
    ∃ w, get_waveform env0 "wave" 5 = .ok w ∧
      w.peaks.length = min (max 5 8) 4096 :=
  ⟨rfl, by
    obtain ⟨w, hw, hlen, -, -⟩ :=
      (get_waveform_shape env0 "wave" 5).2 sampleFile rfl
    exact ⟨w, hw, hlen⟩⟩

/-- C8: each bucket's raw amplitude is `min(1, log2(rms + 1) / 10)` of the
bucket's RMS (with `0` for a bucket that received no samples), and the final
peak vector is the raw vector divided pointwise by its maximum exactly when
that maximum lies strictly between `0` and `1`, and is left unchanged when
the maximum is `0` or has reached `1`. -/
theorem waveform_compress_normalize (f : DecodedFile) (buckets : ℕ) :
    (waveformOfFile f buckets).peaks =
      (if 0 < maxPeak (rawPeaks f buckets) ∧ maxPeak (rawPeaks f buckets) < 1
       then (rawPeaks f buckets).map fun q => q / maxPeak (rawPeaks f buckets)
       else rawPeaks f buckets) ∧
    rawPeaks f buckets =
      (List.range buckets).map fun b =>
        if bucketSamples f.samples f.channels buckets (totalFramesOf f) b = [] then 0
        else
          min 1
            (Real.logb 2
              (bucketRmsSpec f.channels
                ((bucketSamples f.samples f.channels buckets (totalFramesOf f) b).map
                  sampleValue) + 1) / 10) := by
  constructor
  · rfl
  · simp only [rawPeaks, rawPeak_eq_spec]

end Bonk
